import Mathlib

/-!
Verification development for the PTV Home schedule fetcher
(`PTVHome.Fetch.py`).  The Python source is shallowly embedded: pure
helpers become Lean functions, external effects (HTTP responses, the
parsed HTML document, the file system) become explicit oracle inputs,
and `sys.exit(n)` / exception control flow becomes explicit outcome
values.  Machine-independent data (markup bodies) is modelled as
`List Char`; Python `datetime` values are modelled by their proleptic
Gregorian ordinal (`datetime.toordinal`, day 1 = 0001-01-01, a Monday)
together with the time-of-day fields.
-/

set_option maxRecDepth 100000

/-- Model of a Python timezone-aware `datetime`: `days` is the value of
`toordinal()` (day 1 = 0001-01-01, which is a Monday); time-of-day is kept
in separate fields.  Timezone info is constant (`Asia/Karachi`) in the
source and plays no role in the modelled arithmetic. -/
structure DateTime where
  days : Int
  hour : Nat
  minute : Nat
  second : Nat
  microsecond : Nat
  deriving Repr, DecidableEq

/-- Python `datetime.weekday()`: Monday = 0 .. Sunday = 6.  Since ordinal
day 1 is a Monday, this is `(days - 1) mod 7`. -/
def DateTime.weekday (dt : DateTime) : Int :=
  (dt.days - 1) % 7

/-- The `day_map` dictionary of `_compute_weekday_date`
(src/PTVHome.Fetch.py lines 13-16). -/
def day_map (s : String) : Option Nat :=
  if s = "Monday" then some 0
  else if s = "Tuesday" then some 1
  else if s = "Wednesday" then some 2
  else if s = "Thursday" then some 3
  else if s = "Friday" then some 4
  else if s = "Saturday" then some 5
  else if s = "Sunday" then some 6
  else none

/-- `_compute_weekday_date(base_dt, target_day_name)`
(src/PTVHome.Fetch.py lines 11-25): looks the name up in `day_map`
(raising `ValueError`, modelled as `Except.error`, when absent), shifts
`base_dt` by `target_idx - base_dt.weekday()` days, and normalizes the
time-of-day to midday (12:00:00.000000). -/
def compute_weekday_date (base : DateTime) (target_day_name : String) :
    Except String DateTime :=
  match day_map target_day_name with
  | none => Except.error ("Unknown day name: " ++ target_day_name)
  | some target_idx =>
    let delta : Int := (target_idx : Int) - base.weekday
    Except.ok ⟨base.days + delta, 12, 0, 0, 0⟩

/-- Ordinal of the Monday of the Monday-Sunday week containing `dt`. -/
def DateTime.mondayOf (dt : DateTime) : Int :=
  dt.days - (dt.days - 1) % 7

/-- `strftime('%A')`: full English weekday name. -/
def DateTime.weekdayFullName (dt : DateTime) : String :=
  match dt.weekday.toNat with
  | 0 => "Monday"
  | 1 => "Tuesday"
  | 2 => "Wednesday"
  | 3 => "Thursday"
  | 4 => "Friday"
  | 5 => "Saturday"
  | _ => "Sunday"

/-- `strftime('%a')`: abbreviated English weekday name. -/
def DateTime.weekdayAbbrName (dt : DateTime) : String :=
  match dt.weekday.toNat with
  | 0 => "Mon"
  | 1 => "Tue"
  | 2 => "Wed"
  | 3 => "Thu"
  | 4 => "Fri"
  | 5 => "Sat"
  | _ => "Sun"

/-- Proleptic-Gregorian ordinal to (year, month, day-of-month), the civil
calendar conversion underlying `strftime('%b')`, `'%d'` and `'%Y'` (the
standard days-to-civil algorithm; `719163` is the ordinal of 1970-01-01
and `719468` the day count from 0000-03-01 to 1970-01-01). -/
def civilFromOrdinal (ord : Int) : Int × Nat × Nat :=
  let z := ord - 719163 + 719468
  let era := Int.fdiv z 146097
  let doe := (z % 146097).toNat
  let yoe := (doe - doe / 1460 + doe / 36524 - doe / 146096) / 365
  let doy := doe - (365 * yoe + yoe / 4 - yoe / 100)
  let mp := (5 * doy + 2) / 153
  let d := doy - (153 * mp + 2) / 5 + 1
  let m := if mp < 10 then mp + 3 else mp - 9
  (((yoe : Int) + era * 400) + (if m ≤ 2 then 1 else 0), m, d)

/-- `strftime('%b')`: abbreviated English month name. -/
def monthAbbrName (m : Nat) : String :=
  match m with
  | 1 => "Jan" | 2 => "Feb" | 3 => "Mar" | 4 => "Apr"
  | 5 => "May" | 6 => "Jun" | 7 => "Jul" | 8 => "Aug"
  | 9 => "Sep" | 10 => "Oct" | 11 => "Nov" | _ => "Dec"

/-- Zero-padded two-digit decimal field (`%d`, `%H`, `%M`, `%S`). -/
def pad2 (n : Nat) : String :=
  if n < 10 then "0" ++ toString n else toString n

/-- Zero-padded four-digit year (`%Y`); Python datetimes always have
year ≥ 1, so the `Int.toNat` truncation is irrelevant on valid inputs. -/
def pad4 (y : Int) : String :=
  let n := y.toNat
  if n < 10 then "000" ++ toString n
  else if n < 100 then "00" ++ toString n
  else if n < 1000 then "0" ++ toString n
  else toString n

/-- The head of every generated URL, up to and including `dayofweek=`
(src/PTVHome.Fetch.py line 45). -/
def urlHead : String :=
  "https://ptv.com.pk/tvguidemaster?channelid=3&dayofweek="

/-- The f-string of `build_dynamic_url` (src/PTVHome.Fetch.py lines
44-47): `urlHead`, the `dayofweek` value, then the `date` parameter built
from the strftime components of `target_dt`. -/
def formatUrl (dayOfWeek : String) (dt : DateTime) : String :=
  let c := civilFromOrdinal dt.days
  urlHead ++
    (dayOfWeek ++
      ("&date=" ++ dt.weekdayAbbrName ++ "%20" ++ monthAbbrName c.2.1 ++
        "%20" ++ pad2 c.2.2 ++ "%20" ++ pad4 c.1 ++ "%20" ++
        pad2 dt.hour ++ "%3A" ++ pad2 dt.minute ++ "%3A" ++
        pad2 dt.second ++ "%20GMT%2B0500%20(Pakistan%20Standard%20Time)"))

/-- `build_dynamic_url(base_dt, override_day)` (src/PTVHome.Fetch.py
lines 27-49): `target_day = override_day or base_dt.strftime('%A')`
(Python `or` treats the empty string as falsy), then tries
`_compute_weekday_date`; on any exception it falls back to `base_dt`
unmodified, and finally formats the URL. -/
def build_dynamic_url (base : DateTime) (override_day : Option String) :
    String :=
  let target_day :=
    match override_day with
    | some d => if d = "" then base.weekdayFullName else d
    | none => base.weekdayFullName
  let target_dt :=
    match compute_weekday_date base target_day with
    | Except.ok dt => dt
    | Except.error _ => base
  formatUrl target_day target_dt

/-- The "Just a moment" interstitial marker (src/PTVHome.Fetch.py
line 274). -/
def justMoment : List Char := "Just a moment".data

/-- The "challenge-platform" interstitial marker (src/PTVHome.Fetch.py
line 274). -/
def challengePlatform : List Char := "challenge-platform".data

/-- Python's substring operator `needle in haystack`. -/
def hasSub : List Char → List Char → Bool
  | needle, [] => needle.isEmpty
  | needle, c :: rest => needle.isPrefixOf (c :: rest) || hasSub needle rest

/-- The response classification used by `fetch_with_retries`
(src/PTVHome.Fetch.py line 274): a response is accepted ("ok") exactly
when its status is 200 and its body contains neither interstitial
marker.  Note the body length is NOT consulted here. -/
def classify_ok (status : Nat) (txt : List Char) : Bool :=
  status == 200 && !hasSub justMoment txt && !hasSub challengePlatform txt

/-- Classification as worded by the spec (for comparison with
`classify_ok`): additionally challenged when the body length is below a
minimum content threshold. -/
def classifySpecOk (minLen : Nat) (status : Nat) (txt : List Char) :
    Bool :=
  status == 200 && !hasSub justMoment txt &&
    !hasSub challengePlatform txt && !(txt.length < minLen)

/-- One attempted GET as seen by `fetch_with_retries`: either a response
(status code and body text, with `resp.text or ""` already applied) or a
raised transport error, identified by a numeric label so that "the last
transport error" is expressible. -/
inductive FetchResult where
  | success (status : Nat) (text : List Char)
  | error (e : Nat)
  deriving Repr, DecidableEq

/-- Whether an attempt would be accepted by the retry loop. -/
def attemptOk : FetchResult → Bool
  | FetchResult.success s t => classify_ok s t
  | FetchResult.error _ => false

/-- Result of the whole retry loop: the returned response, or the
re-raised last transport error, or the `RuntimeError("Failed to bypass
challenge after retries")`. -/
inductive RetryOutcome where
  | ok (status : Nat) (text : List Char)
  | raisedTransport (e : Nat)
  | raisedExhausted
  deriving Repr, DecidableEq

/-- The retry loop of `fetch_with_retries` (src/PTVHome.Fetch.py lines
267-283) over an explicit list of attempt results, threading the
`last_err` variable; returns the outcome together with the number of GET
calls performed and the number of `time.sleep(3)` calls performed (one
after every attempt that is not accepted). -/
def fetchList : List FetchResult → Option Nat → RetryOutcome × Nat × Nat
  | [], lastErr =>
    (match lastErr with
     | some e => RetryOutcome.raisedTransport e
     | none => RetryOutcome.raisedExhausted, 0, 0)
  | a :: rest, lastErr =>
    match a with
    | FetchResult.success s t =>
      if classify_ok s t then (RetryOutcome.ok s t, 1, 0)
      else
        match fetchList rest lastErr with
        | (o, c, sl) => (o, c + 1, sl + 1)
    | FetchResult.error e =>
      match fetchList rest (some e) with
      | (o, c, sl) => (o, c + 1, sl + 1)

/-- `fetch_with_retries(url, headers, max_retries)`: the i-th GET of the
same URL is modelled by `attempts i` (0-based). -/
def fetch_with_retries (attempts : Nat → FetchResult) (max_retries : Nat) :
    RetryOutcome × Nat × Nat :=
  fetchList ((List.range max_retries).map attempts) none

/-- `fetch_with_retries` with the source's default `max_retries=3`. -/
def fetch_with_retries_default (attempts : Nat → FetchResult) :
    RetryOutcome × Nat × Nat :=
  fetch_with_retries attempts 3

/-- Python `str.strip()`: remove leading and trailing whitespace. -/
def pyStrip (l : List Char) : List Char :=
  ((l.dropWhile Char.isWhitespace).reverse.dropWhile
    Char.isWhitespace).reverse

/-- Byte size of the UTF-8 encoding of a character list: the value
`os.path.getsize` reports after the UTF-8 write of that text. -/
def utf8Len (l : List Char) : Nat :=
  (l.map Char.utf8Size).sum

/-- The fixed Monday-to-Sunday iteration order (src/PTVHome.Fetch.py
line 311). -/
def dayNames : List String :=
  ["Monday", "Tuesday", "Wednesday", "Thursday", "Friday", "Saturday",
    "Sunday"]

/-- Per-day artifact file name `PTVHome.Schedule.{day}.txt`
(src/PTVHome.Fetch.py line 346). -/
def dayFileName (day : String) : String :=
  "PTVHome.Schedule." ++ day ++ ".txt"

/-- The combined artifact file name (src/PTVHome.Fetch.py line 366). -/
def fileAll : String := "PTVHome.Schedule.All.txt"

/-- The weekday-marking comment line prefixed to each fragment in the
combined artifact: `f"<!-- {day} -->\n"` (src/PTVHome.Fetch.py
line 363). -/
def hdr (day : String) : List Char :=
  ("<!-- " ++ day ++ " -->\n").data

/-- The `"\n\n"` separator of the combined artifact
(src/PTVHome.Fetch.py line 367). -/
def sepBlank : List Char := ['\n', '\n']

/-- The `id_map` construction of the no-browser strategy
(src/PTVHome.Fetch.py lines 303-308): from the parsed nav links, given
as (title-cased display text, href) pairs, keep those with non-empty
text and an href starting with `#`, mapping text to the fragment
identifier (href minus the leading `#`); later entries overwrite
earlier ones (Python dict assignment). -/
def id_map_entries (nav : List (String × String)) :
    List (String × String) :=
  nav.filterMap (fun p =>
    match p.2.data with
    | '#' :: restChars =>
      if p.1 = "" then none else some (p.1, String.mk restChars)
    | _ => none)

/-- `id_map.get(day)`: last assignment wins. -/
def idMapGet (nav : List (String × String)) (day : String) :
    Option String :=
  ((id_map_entries nav).reverse.find? (fun q => q.1 == day)).map Prod.snd

/-- Write trace of a run: the per-day/combined files written, in order
(`files`), and the accumulated `combined_contents` list. -/
structure RunState where
  files : List (String × List Char)
  combined : List (List Char)
  deriving Repr, DecidableEq

/-- Oracle inputs of the no-browser (server) strategy: the successive
tvguide-page GET results, the parsed nav links, the pane markup by tab
identifier (`soup.select_one`, `decode_contents()` with `or ""` already
applied), the per-day AJAX GET results, and whether each file write /
stat succeeds.  Everything the source does through the network, the
HTML parser or the file system is an oracle; the control flow around
them is the embedding. -/
structure Env where
  pageAttempts : Nat → FetchResult
  navLinks : List (String × String)
  pane : String → Option (List Char)
  ajaxAttempts : String → Nat → FetchResult
  writeOk : String → Bool
  statOk : String → Bool
  combinedWriteOk : Bool

/-- The per-day write/stat/size-check block (src/PTVHome.Fetch.py lines
346-363): write the day file (write failure exits 1); stat it (stat
failure exits 1); exit 1 if the file size is below 100 bytes; otherwise
append the marker-prefixed fragment to `combined_contents`. -/
def writeStep (env : Env) (day : String) (html : List Char)
    (st : RunState) : Option Nat × RunState :=
  if env.writeOk (dayFileName day) then
    let st1 : RunState := ⟨st.files ++ [(dayFileName day, html)], st.combined⟩
    if env.statOk (dayFileName day) then
      if utf8Len html < 100 then (some 1, st1)
      else (none, ⟨st1.files, st.combined ++ [hdr day ++ html]⟩)
    else (some 1, st1)
  else (some 1, st)

/-- One iteration of the no-browser per-day loop (src/PTVHome.Fetch.py
lines 313-363): missing or empty tab id exits 1; missing pane exits 1;
if the stripped pane markup is shorter than 100 the AJAX endpoint is
fetched with retries, any raise exits 1, a non-200 status or stripped
length below 100 exits 1, and otherwise the (unstripped) AJAX body
replaces the markup; then the write/stat/size block runs.  The first
component is `some code` when the iteration calls `sys.exit(code)`. -/
def processDay (env : Env) (day : String) (st : RunState) :
    Option Nat × RunState :=
  match idMapGet env.navLinks day with
  | none => (some 1, st)
  | some tabId =>
    if tabId = "" then (some 1, st)
    else
      match env.pane tabId with
      | none => (some 1, st)
      | some contents =>
        if (pyStrip contents).length < 100 then
          match fetch_with_retries (env.ajaxAttempts day) 3 with
          | (RetryOutcome.ok s t, _, _) =>
            if s ≠ 200 ∨ (pyStrip t).length < 100 then (some 1, st)
            else writeStep env day t st
          | (RetryOutcome.raisedTransport _, _, _) => (some 1, st)
          | (RetryOutcome.raisedExhausted, _, _) => (some 1, st)
        else writeStep env day (pyStrip contents) st

/-- The whole per-day loop: processes days in order, stopping at the
first `sys.exit`. -/
def runDays (env : Env) : List String → RunState → Option Nat × RunState
  | [], st => (none, st)
  | day :: rest, st =>
    match processDay env day st with
    | (some c, st1) => (some c, st1)
    | (none, st1) => runDays env rest st1

/-- How a run of `fetch_ptv_home_schedule` ends: a normal return of the
function (process exit code 0) or a `sys.exit` with the given code
(`SystemExit` is not an `Exception`, so the top-level
`except Exception` does not intercept it). -/
inductive Outcome where
  | normal
  | exited (code : Nat)
  deriving Repr, DecidableEq

/-- The no-browser (server) strategy (src/PTVHome.Fetch.py lines
240-371): after the best-effort priming GET (non-fatal, not modelled),
fetch the tvguide page with retries (any raise exits 1); exit 1 when the
status is not 200 or the stripped page is shorter than 500; run the
per-day loop; finally write the combined artifact, joining the
marker-prefixed fragments with a blank line (write failure exits 1). -/
def serverMode (env : Env) : Outcome × RunState :=
  match fetch_with_retries env.pageAttempts 3 with
  | (RetryOutcome.ok s t, _, _) =>
    if s ≠ 200 ∨ (pyStrip t).length < 500 then (Outcome.exited 1, ⟨[], []⟩)
    else
      match runDays env dayNames ⟨[], []⟩ with
      | (some c, st) => (Outcome.exited c, st)
      | (none, st) =>
        if env.combinedWriteOk then
          (Outcome.normal,
            ⟨st.files ++ [(fileAll, List.intercalate sepBlank st.combined)],
              st.combined⟩)
        else (Outcome.exited 1, st)
  | (RetryOutcome.raisedTransport _, _, _) => (Outcome.exited 1, ⟨[], []⟩)
  | (RetryOutcome.raisedExhausted, _, _) => (Outcome.exited 1, ⟨[], []⟩)

/-- Abstract result of the browser-driven strategy (src/PTVHome.Fetch.py
lines 102-238): the run either completes its loop (writing `st` and
returning at line 236) or raises at some point, with `st` the artifacts
written before the raise.  The `except` at line 237 catches, logs and
falls through to the server strategy. -/
inductive BrowserOutcome where
  | completes (st : RunState)
  | raises (st : RunState)

/-- `fetch_ptv_home_schedule(no_browser)` (src/PTVHome.Fetch.py lines
91-374): with `no_browser` the server strategy runs directly; otherwise
the browser strategy runs, a completed browser run returns normally, and
a raised one falls through to the server strategy, the browser's
already-written artifacts staying in the write trace. -/
def fetch_ptv_home_schedule (env : Env) (b : BrowserOutcome)
    (no_browser : Bool) : Outcome × RunState :=
  if no_browser then serverMode env
  else
    match b with
    | BrowserOutcome.completes st => (Outcome.normal, st)
    | BrowserOutcome.raises st =>
      let r := serverMode env
      (r.1, ⟨st.files ++ r.2.files, r.2.combined⟩)

/-- What `load_cookies` (src/PTVHome.Fetch.py lines 60-69) can observe
of the cookie side-channel file: absent (`os.path.exists` false),
present but unreadable or malformed (the guarded `open`/`json.load`
raises), or present and parsed to a stored cookie collection, given as
(name, value) pairs. -/
inductive CookieFile where
  | absent
  | unreadable
  | stored (cookies : List (String × String))

/-- `load_cookies(path)` (src/PTVHome.Fetch.py lines 60-69): an absent
file and a failed read/parse both yield `[]` (the `except` branch only
logs); a parsed file yields the stored collection.  The function is
total: every exception in the source is caught. -/
def load_cookies : CookieFile → List (String × String)
  | CookieFile.absent => []
  | CookieFile.unreadable => []
  | CookieFile.stored cs => cs

/-- A 500-byte unchallenge page body (long enough for the tvguide
length check). -/
def page500 : List Char := List.replicate 500 'b'

/-- A 120-byte pane body (long enough for the per-day length check). -/
def pane120 : List Char := List.replicate 120 'a'

/-- A 150-byte AJAX response body. -/
def ajaxBody : List Char := List.replicate 150 'c'

/-- Nav links mapping all seven weekdays to distinct tab ids. -/
def navAll : List (String × String) :=
  [("Monday", "#d1"), ("Tuesday", "#d2"), ("Wednesday", "#d3"),
    ("Thursday", "#d4"), ("Friday", "#d5"), ("Saturday", "#d6"),
    ("Sunday", "#d7")]

/-- Oracle of a fully successful server-mode run. -/
def envGood : Env :=
  ⟨fun _ => FetchResult.success 200 page500, navAll,
    fun _ => some pane120, fun _ _ => FetchResult.success 200 ajaxBody,
    fun _ => true, fun _ => true, true⟩

/-- Oracle whose every GET raises a transport error. -/
def envFail : Env :=
  ⟨fun _ => FetchResult.error 0, [], fun _ => none,
    fun _ _ => FetchResult.error 0, fun _ => true, fun _ => true, true⟩

/-- Nav links missing the "Wednesday" mapping. -/
def navNoWed : List (String × String) :=
  [("Monday", "#d1"), ("Tuesday", "#d2"), ("Thursday", "#d4"),
    ("Friday", "#d5"), ("Saturday", "#d6"), ("Sunday", "#d7")]

/-- Oracle of a run whose schedule page lacks the Wednesday tab. -/
def envNoWed : Env :=
  ⟨fun _ => FetchResult.success 200 page500, navNoWed,
    fun _ => some pane120, fun _ _ => FetchResult.success 200 ajaxBody,
    fun _ => true, fun _ => true, true⟩

/-- A pane body whose trimmed length (2) is below the 100-byte
minimum. -/
def shortPane : List Char := ['h', 'i']

/-- Oracle of a run where the Friday pane is too short and the AJAX
endpoint answers with a valid 150-byte body. -/
def envAjax : Env :=
  ⟨fun _ => FetchResult.success 200 page500, [("Friday", "#f")],
    fun _ => some shortPane, fun _ _ => FetchResult.success 200 ajaxBody,
    fun _ => true, fun _ => true, true⟩

/-- Oracle of a run where the Friday pane is too short and the AJAX
endpoint answers 200 but with a 2-byte body. -/
def envAjaxShort : Env :=
  ⟨fun _ => FetchResult.success 200 page500, [("Friday", "#f")],
    fun _ => some shortPane,
    fun _ _ => FetchResult.success 200 ['x', 'y'],
    fun _ => true, fun _ => true, true⟩

theorem day_map_lt_seven {s : String} {i : Nat} (h : day_map s = some i) :
    i < 7 := by
  unfold day_map at h
  split_ifs at h <;> simp_all <;> omega

/-- C1 counterexample: for the reference instant with ordinal 1 (a
Monday) and target name "Sunday", `_compute_weekday_date` returns a date
6 days after the reference date, outside the claimed ±3-day bound. -/
theorem compute_weekday_date_monday_to_sunday_is_six_days :
    ∃ dt, compute_weekday_date ⟨1, 0, 0, 0, 0⟩ "Sunday" = Except.ok dt ∧
      3 < (dt.days - (1 : Int)).natAbs :=
  ⟨⟨7, 12, 0, 0, 0⟩, rfl, by decide⟩

/-- C1 (amended): for every reference instant and each of the seven
canonical weekday names, `_compute_weekday_date` succeeds and returns a
datetime whose weekday index equals the name's index, lying in the same
Monday-Sunday week as the reference date (hence within ±6 days of it,
not ±3), with the time-of-day normalized to midday. -/
theorem compute_weekday_date_same_week (base : DateTime) (name : String)
    (idx : Nat) (h : day_map name = some idx) :
    ∃ dt, compute_weekday_date base name = Except.ok dt ∧
      dt.weekday = (idx : Int) ∧
      dt.mondayOf = base.mondayOf ∧
      (dt.days - base.days).natAbs ≤ 6 ∧
      dt.hour = 12 ∧ dt.minute = 0 ∧ dt.second = 0 ∧ dt.microsecond = 0 := by
  have hlt : idx < 7 := day_map_lt_seven h
  unfold compute_weekday_date
  rw [h]
  refine ⟨_, rfl, ?_, ?_, ?_, rfl, rfl, rfl, rfl⟩ <;>
    simp only [DateTime.weekday, DateTime.mondayOf] <;> omega

/-- Witness for `compute_weekday_date_same_week` at ordinal 1 (Monday)
and target "Wednesday" (index 2). -/
theorem compute_weekday_date_same_week_witness :
    day_map "Wednesday" = some 2 ∧
      ∃ dt, compute_weekday_date ⟨1, 0, 0, 0, 0⟩ "Wednesday" =
          Except.ok dt ∧
        dt.weekday = ((2 : Nat) : Int) ∧
        dt.mondayOf = DateTime.mondayOf ⟨1, 0, 0, 0, 0⟩ ∧
        (dt.days - (⟨1, 0, 0, 0, 0⟩ : DateTime).days).natAbs ≤ 6 ∧
        dt.hour = 12 ∧ dt.minute = 0 ∧ dt.second = 0 ∧
        dt.microsecond = 0 :=
  ⟨rfl, compute_weekday_date_same_week ⟨1, 0, 0, 0, 0⟩ "Wednesday" 2 rfl⟩

/-- C7: `build_dynamic_url` never raises; for an override day name that
is not one of the seven canonical names (so weekday resolution fails),
the URL is built from the reference instant unmodified (no midday
normalization), while the given day name is still embedded right after
the `dayofweek=` parameter. -/
theorem build_dynamic_url_fallback (base : DateTime) (d : String)
    (hne : d ≠ "") (hmap : day_map d = none) :
    build_dynamic_url base (some d) = formatUrl d base ∧
      ∃ rest, build_dynamic_url base (some d) = urlHead ++ (d ++ rest) := by
  have h1 : build_dynamic_url base (some d) = formatUrl d base := by
    unfold build_dynamic_url
    simp only [if_neg hne]
    unfold compute_weekday_date
    rw [hmap]
  exact ⟨h1, _, by rw [h1]; rfl⟩

/-- `hasSub` is exactly the substring relation. -/
theorem hasSub_iff (n h : List Char) :
    hasSub n h = true ↔ ∃ p q, h = p ++ n ++ q := by
  induction h with
  | nil =>
    simp only [hasSub, List.isEmpty_iff]
    constructor
    · rintro rfl; exact ⟨[], [], rfl⟩
    · rintro ⟨p, q, hpq⟩
      rcases List.append_eq_nil.mp (List.append_eq_nil.mp hpq.symm).1 with ⟨-, h2⟩
      exact h2
  | cons c rest ih =>
    simp only [hasSub, Bool.or_eq_true, List.isPrefixOf_iff_prefix, ih]
    constructor
    · rintro (⟨t, ht⟩ | ⟨p, q, hpq⟩)
      · exact ⟨[], t, by simp [← ht]⟩
      · exact ⟨c :: p, q, by simp [hpq]⟩
    · rintro ⟨p, q, hpq⟩
      match p, hpq with
      | [], hpq => exact Or.inl ⟨q, by simpa using hpq.symm⟩
      | c' :: p', hpq =>
        right
        refine ⟨p', q, ?_⟩
        have := hpq
        simp only [List.cons_append] at this
        exact (List.cons.injEq .. ▸ this).2

theorem range_map_succ (att : Nat → FetchResult) (n : Nat) :
    (List.range (n + 1)).map att =
      att 0 :: (List.range n).map (fun i => att (i + 1)) := by
  rw [List.range_succ_eq_map, List.map_cons, List.map_map]
  rfl

/-- If every attempt fails classification and none raises, the loop
consumes all attempts and the `last_err` accumulator is returned
unchanged (so `none` yields the challenge-exhausted error). -/
theorem fetchList_all_challenged (n : Nat) :
    ∀ (att : Nat → FetchResult) (acc : Option Nat),
      (∀ i, i < n → attemptOk (att i) = false) →
      (∀ i e, i < n → att i ≠ FetchResult.error e) →
      fetchList ((List.range n).map att) acc =
        (match acc with
         | some e => RetryOutcome.raisedTransport e
         | none => RetryOutcome.raisedExhausted, n, n) := by
  induction n with
  | zero => intro att acc _ _; rfl
  | succ m ih =>
    intro att acc hok herr
    rw [range_map_succ]
    cases h0 : att 0 with
    | success s t =>
      have hcl : classify_ok s t = false := by
        have := hok 0 (Nat.succ_pos m); rwa [h0] at this
      simp only [fetchList, hcl, Bool.false_eq_true, if_false]
      rw [ih (fun i => att (i + 1)) acc
        (fun i hi => hok (i + 1) (Nat.succ_lt_succ hi))
        (fun i e hi => herr (i + 1) e (Nat.succ_lt_succ hi))]
    | error e => exact absurd h0 (herr 0 e (Nat.succ_pos m))

/-- If every attempt fails classification and the last raising attempt
is attempt `j` with error `e`, the loop consumes all attempts and
re-raises `e`. -/
theorem fetchList_last_error (n : Nat) :
    ∀ (att : Nat → FetchResult) (acc : Option Nat) (j e : Nat),
      (∀ i, i < n → attemptOk (att i) = false) →
      j < n → att j = FetchResult.error e →
      (∀ k e', j < k → k < n → att k ≠ FetchResult.error e') →
      fetchList ((List.range n).map att) acc =
        (RetryOutcome.raisedTransport e, n, n) := by
  induction n with
  | zero => intro att acc j e _ hj; omega
  | succ m ih =>
    intro att acc j e hok hj hje hafter
    rw [range_map_succ]
    cases j with
    | zero =>
      rw [hje]
      simp only [fetchList]
      rw [fetchList_all_challenged m (fun i => att (i + 1)) (some e)
        (fun i hi => hok (i + 1) (Nat.succ_lt_succ hi))
        (fun i e' hi => hafter (i + 1) e' (Nat.succ_pos i)
          (Nat.succ_lt_succ hi))]
    | succ k =>
      cases h0 : att 0 with
      | success s t =>
        have hcl : classify_ok s t = false := by
          have := hok 0 (Nat.succ_pos m); rwa [h0] at this
        simp only [fetchList, hcl, Bool.false_eq_true, if_false]
        rw [ih (fun i => att (i + 1)) acc k e
          (fun i hi => hok (i + 1) (Nat.succ_lt_succ hi))
          (Nat.lt_of_succ_lt_succ hj) hje
          (fun i e' hki him =>
            hafter (i + 1) e' (Nat.succ_lt_succ hki) (Nat.succ_lt_succ him))]
      | error e0 =>
        simp only [fetchList]
        rw [ih (fun i => att (i + 1)) (some e0) k e
          (fun i hi => hok (i + 1) (Nat.succ_lt_succ hi))
          (Nat.lt_of_succ_lt_succ hj) hje
          (fun i e' hki him =>
            hafter (i + 1) e' (Nat.succ_lt_succ hki) (Nat.succ_lt_succ him))]

/-- If the first `j` attempts all fail and attempt `j` succeeds
classification, the loop returns that response after exactly `j + 1`
GET calls and `j` sleeps. -/
theorem fetchList_first_ok (n : Nat) :
    ∀ (att : Nat → FetchResult) (acc : Option Nat) (j : Nat)
      (s : Nat) (t : List Char),
      j < n → (∀ i, i < j → attemptOk (att i) = false) →
      att j = FetchResult.success s t → classify_ok s t = true →
      fetchList ((List.range n).map att) acc =
        (RetryOutcome.ok s t, j + 1, j) := by
  induction n with
  | zero => intro att acc j s t hj; omega
  | succ m ih =>
    intro att acc j s t hj hok hjs hcl
    rw [range_map_succ]
    cases j with
    | zero => rw [hjs]; simp only [fetchList, hcl, if_true]
    | succ k =>
      cases h0 : att 0 with
      | success s0 t0 =>
        have hcl0 : classify_ok s0 t0 = false := by
          have := hok 0 (Nat.succ_pos k); rwa [h0] at this
        simp only [fetchList, hcl0, Bool.false_eq_true, if_false]
        rw [ih (fun i => att (i + 1)) acc k s t
          (Nat.lt_of_succ_lt_succ hj)
          (fun i hi => hok (i + 1) (Nat.succ_lt_succ hi)) hjs hcl]
      | error e0 =>
        simp only [fetchList]
        rw [ih (fun i => att (i + 1)) (some e0) k s t
          (Nat.lt_of_succ_lt_succ hj)
          (fun i hi => hok (i + 1) (Nat.succ_lt_succ hi)) hjs hcl]

/-- C2 counterexample: a 200-status response whose body `"x"` is shorter
than any plausible minimum threshold is classified `ok` by the code (the
spec-worded classifier rejects it), and `fetch_with_retries` returns it
on the first attempt instead of retrying. -/
theorem classify_short_ok_body_accepted :
    classify_ok 200 ['x'] = true ∧
      List.length ['x'] < 100 ∧
      classifySpecOk 100 200 ['x'] = false ∧
      fetch_with_retries (fun _ => FetchResult.success 200 ['x']) 3 =
        (RetryOutcome.ok 200 ['x'], 1, 0) := by
  refine ⟨by decide, by decide, by decide, ?_⟩
  exact fetchList_first_ok 3 _ none 0 200 ['x'] (by decide)
    (fun i hi => absurd hi (Nat.not_lt_zero i)) rfl (by decide)

/-- C2 (amended): the classification of `fetch_with_retries` yields
`ok` exactly when the status is 200 and the body contains neither
"Just a moment" nor "challenge-platform" as a substring; the body
length is not consulted (a 200-status body below the call site's
minimum length is classified `ok` and returned, the length checks
happening afterwards at the call sites). -/
theorem classify_ok_iff (s : Nat) (t : List Char) :
    classify_ok s t = true ↔
      s = 200 ∧ ¬(∃ p q, t = p ++ justMoment ++ q) ∧
        ¬(∃ p q, t = p ++ challengePlatform ++ q) := by
  simp only [classify_ok, Bool.and_eq_true, beq_iff_eq,
    Bool.not_eq_true', ← Bool.not_eq_true, hasSub_iff, and_assoc]

/-- Witness for `classify_ok_iff`: a 200 response with a clean short
body is `ok`; a non-200 response with the same body is `challenged`. -/
theorem classify_ok_iff_witness :
    classify_ok 200 ['n', 'o'] = true ∧
      classify_ok 503 ['n', 'o'] = false := by
  have hn1 : ¬(∃ p q, ['n', 'o'] = p ++ justMoment ++ q) := by
    intro hex
    have := (hasSub_iff justMoment ['n', 'o']).mpr hex
    rw [show hasSub justMoment ['n', 'o'] = false from by decide] at this
    exact absurd this (by simp)
  have hn2 : ¬(∃ p q, ['n', 'o'] = p ++ challengePlatform ++ q) := by
    intro hex
    have := (hasSub_iff challengePlatform ['n', 'o']).mpr hex
    rw [show hasSub challengePlatform ['n', 'o'] = false from by decide]
      at this
    exact absurd this (by simp)
  constructor
  · exact (classify_ok_iff 200 ['n', 'o']).mpr ⟨rfl, hn1, hn2⟩
  · rw [← Bool.not_eq_true]
    intro htrue
    exact absurd ((classify_ok_iff 503 ['n', 'o']).mp htrue).1 (by decide)

/-- C4: exhausting `fetch_with_retries`.  If no attempt is ever
classified `ok`, the loop performs exactly `maxAttempts` GET calls (with
a 3-second sleep after each failed attempt, in particular between
consecutive attempts) and then raises: the last transport error if some
attempt raised, otherwise the challenge-exhausted `RuntimeError`.  If
the first accepted attempt is attempt `j + 1` (1-based), the loop
returns that attempt's response after exactly `j + 1` GET calls.  The
source's default attempt count is 3. -/
theorem fetch_with_retries_spec :
    (∀ (att : Nat → FetchResult) (n : Nat),
      (∀ i, i < n → attemptOk (att i) = false) →
      ((∀ i e, i < n → att i ≠ FetchResult.error e) →
          fetch_with_retries att n = (RetryOutcome.raisedExhausted, n, n))
        ∧ (∀ j e, j < n → att j = FetchResult.error e →
            (∀ k e', j < k → k < n → att k ≠ FetchResult.error e') →
            fetch_with_retries att n =
              (RetryOutcome.raisedTransport e, n, n)))
      ∧ (∀ (att : Nat → FetchResult) (n j s : Nat) (t : List Char),
          j < n → (∀ i, i < j → attemptOk (att i) = false) →
          att j = FetchResult.success s t → classify_ok s t = true →
          fetch_with_retries att n = (RetryOutcome.ok s t, j + 1, j))
      ∧ (∀ att, fetch_with_retries_default att = fetch_with_retries att 3) := by
  refine ⟨fun att n hok => ⟨fun herr => ?_, fun j e hj hje hafter => ?_⟩,
    fun att n j s t hj hok hjs hcl => ?_, fun att => rfl⟩
  · exact fetchList_all_challenged n att none hok herr
  · exact fetchList_last_error n att none j e hok hj hje hafter
  · exact fetchList_first_ok n att none j s t hj hok hjs hcl

/-- Witness for `fetch_with_retries_spec`: an always-challenged fetch
exhausts after exactly 3 calls raising the challenge-exhausted error; a
fetch whose only raise is on attempt 1 exhausts re-raising that error;
a fetch accepted on attempt 2 returns after exactly 2 calls. -/
theorem fetch_with_retries_spec_witness :
    fetch_with_retries (fun _ => FetchResult.success 200 justMoment) 3 =
        (RetryOutcome.raisedExhausted, 3, 3) ∧
      fetch_with_retries
          (fun i => if i = 0 then FetchResult.error 7 else
            FetchResult.success 500 []) 3 =
        (RetryOutcome.raisedTransport 7, 3, 3) ∧
      fetch_with_retries
          (fun i => if i = 0 then FetchResult.success 403 [] else
            FetchResult.success 200 ['o', 'k']) 3 =
        (RetryOutcome.ok 200 ['o', 'k'], 2, 1) :=
  ⟨(fetch_with_retries_spec.1 _ 3 (by decide)).1
      (fun i e hi => by interval_cases i <;> simp),
    (fetch_with_retries_spec.1 _ 3 (by decide)).2 0 7 (by decide) rfl
      (fun k e' h1 h2 => by interval_cases k <;> simp),
    fetch_with_retries_spec.2.1 _ 3 1 200 ['o', 'k'] (by decide)
      (by decide) rfl (by decide)⟩

theorem length_dropWhile_le (p : Char → Bool) (l : List Char) :
    (l.dropWhile p).length ≤ l.length := by
  induction l with
  | nil => simp
  | cons a l ih =>
    by_cases h : p a
    · rw [List.dropWhile_cons_of_pos h]
      exact le_trans ih (Nat.le_succ _)
    · rw [List.dropWhile_cons_of_neg h]

theorem pyStrip_length_le (l : List Char) :
    (pyStrip l).length ≤ l.length := by
  unfold pyStrip
  rw [List.length_reverse]
  calc ((l.dropWhile Char.isWhitespace).reverse.dropWhile
          Char.isWhitespace).length
      ≤ (l.dropWhile Char.isWhitespace).reverse.length :=
        length_dropWhile_le _ _
    _ = (l.dropWhile Char.isWhitespace).length := List.length_reverse _
    _ ≤ l.length := length_dropWhile_le _ _

theorem length_le_utf8Len (l : List Char) : l.length ≤ utf8Len l := by
  induction l with
  | nil => simp [utf8Len]
  | cons c l ih =>
    have hc : 1 ≤ c.utf8Size := Char.utf8Size_pos c
    simp only [utf8Len, List.map_cons, List.sum_cons, List.length_cons]
      at ih ⊢
    omega

theorem writeStep_none {env : Env} {day : String} {html : List Char}
    {st st' : RunState} (h100 : 100 ≤ html.length)
    (hw : writeStep env day html st = (none, st')) :
    env.writeOk (dayFileName day) = true ∧
      env.statOk (dayFileName day) = true ∧
      st' = ⟨st.files ++ [(dayFileName day, html)],
        st.combined ++ [hdr day ++ html]⟩ := by
  have hsz : ¬ utf8Len html < 100 := by
    have := length_le_utf8Len html; omega
  unfold writeStep at hw
  by_cases h1 : env.writeOk (dayFileName day) <;> simp only [h1] at hw
  · by_cases h2 : env.statOk (dayFileName day) <;>
      simp only [h2, if_true, if_false, hsz, Bool.false_eq_true] at hw
    · exact ⟨h1, h2, (Prod.mk.injEq .. ▸ hw).2.symm⟩
    · exact absurd hw (by simp)
  · exact absurd hw (by simp)

theorem writeStep_some {env : Env} {day : String} {html : List Char}
    {st st' : RunState} {c : Nat} (h100 : 100 ≤ html.length)
    (hw : writeStep env day html st = (some c, st')) :
    c = 1 ∧ (st' = st ∨
      (env.statOk (dayFileName day) = false ∧
        st' = ⟨st.files ++ [(dayFileName day, html)], st.combined⟩)) := by
  have hsz : ¬ utf8Len html < 100 := by
    have := length_le_utf8Len html; omega
  unfold writeStep at hw
  by_cases h1 : env.writeOk (dayFileName day) <;> simp only [h1] at hw
  · by_cases h2 : env.statOk (dayFileName day) <;>
      simp only [h2, if_true, if_false, hsz, Bool.false_eq_true] at hw
    · exact absurd hw (by simp)
    · have := Prod.mk.injEq .. ▸ hw
      refine ⟨by simpa using this.1.symm, Or.inr ⟨by simp [h2], this.2.symm⟩⟩
  · have := Prod.mk.injEq .. ▸ hw
    exact ⟨by simpa using this.1.symm, Or.inl this.2.symm⟩

theorem processDay_success {env : Env} {day : String} {st st' : RunState}
    (hp : processDay env day st = (none, st')) :
    (idMapGet env.navLinks day ≠ none ∧
        idMapGet env.navLinks day ≠ some "") ∧
      ∃ h, 100 ≤ h.length ∧
        st' = ⟨st.files ++ [(dayFileName day, h)],
          st.combined ++ [hdr day ++ h]⟩ := by
  unfold processDay at hp
  split at hp
  · exact absurd hp (by simp)
  next tabId hmap =>
    split at hp
    · exact absurd hp (by simp)
    next htab =>
      refine ⟨⟨by simp [hmap], by simp [hmap]; exact htab⟩, ?_⟩
      split at hp
      · exact absurd hp (by simp)
      next contents hpane =>
        split at hp
        next hlen =>
          split at hp
          next s t c sl hfa =>
            split at hp
            · exact absurd hp (by simp)
            next hcond =>
              push_neg at hcond
              have h100 : 100 ≤ t.length :=
                le_trans (by omega) (pyStrip_length_le t)
              exact ⟨t, h100, (writeStep_none h100 hp).2.2⟩
          · exact absurd hp (by simp)
          · exact absurd hp (by simp)
        next hlen =>
          have h100 : 100 ≤ (pyStrip contents).length := by omega
          exact ⟨pyStrip contents, h100, (writeStep_none h100 hp).2.2⟩

theorem processDay_abort {env : Env} {day : String} {st st' : RunState}
    {c : Nat} (hp : processDay env day st = (some c, st')) :
    c = 1 ∧ (st' = st ∨
      ∃ h, 100 ≤ h.length ∧ env.statOk (dayFileName day) = false ∧
        st' = ⟨st.files ++ [(dayFileName day, h)], st.combined⟩) := by
  unfold processDay at hp
  split at hp
  · have := Prod.mk.injEq .. ▸ hp
    exact ⟨by simpa using this.1.symm, Or.inl this.2.symm⟩
  next tabId hmap =>
    split at hp
    · have := Prod.mk.injEq .. ▸ hp
      exact ⟨by simpa using this.1.symm, Or.inl this.2.symm⟩
    next htab =>
      split at hp
      · have := Prod.mk.injEq .. ▸ hp
        exact ⟨by simpa using this.1.symm, Or.inl this.2.symm⟩
      next contents hpane =>
        split at hp
        next hlen =>
          split at hp
          next s t cc sl hfa =>
            split at hp
            · have := Prod.mk.injEq .. ▸ hp
              exact ⟨by simpa using this.1.symm, Or.inl this.2.symm⟩
            next hcond =>
              push_neg at hcond
              have h100 : 100 ≤ t.length :=
                le_trans (by omega) (pyStrip_length_le t)
              rcases writeStep_some h100 hp with ⟨hc, hst | ⟨hso, hst⟩⟩
              · exact ⟨hc, Or.inl hst⟩
              · exact ⟨hc, Or.inr ⟨t, h100, hso, hst⟩⟩
          · have := Prod.mk.injEq .. ▸ hp
            exact ⟨by simpa using this.1.symm, Or.inl this.2.symm⟩
          · have := Prod.mk.injEq .. ▸ hp
            exact ⟨by simpa using this.1.symm, Or.inl this.2.symm⟩
        next hlen =>
          have h100 : 100 ≤ (pyStrip contents).length := by omega
          rcases writeStep_some h100 hp with ⟨hc, hst | ⟨hso, hst⟩⟩
          · exact ⟨hc, Or.inl hst⟩
          · exact ⟨hc, Or.inr ⟨pyStrip contents, h100, hso, hst⟩⟩

theorem runDays_abort_code (env : Env) :
    ∀ (l : List String) (st : RunState) (c : Nat) (st' : RunState),
      runDays env l st = (some c, st') → c = 1 := by
  intro l
  induction l with
  | nil => intro st c st' h; exact absurd h (by simp [runDays])
  | cons day rest ih =>
    intro st c st' h
    unfold runDays at h
    split at h
    next c0 st1 hpd =>
      have hinj := Prod.mk.injEq .. ▸ h
      have hc : c0 = c := by simpa using hinj.1
      exact hc ▸ (processDay_abort hpd).1
    next st1 hpd => exact ih st1 c st' h

theorem runDays_none_mapped (env : Env) :
    ∀ (l : List String) (st st' : RunState),
      runDays env l st = (none, st') →
      ∀ d ∈ l, idMapGet env.navLinks d ≠ none ∧
        idMapGet env.navLinks d ≠ some "" := by
  intro l
  induction l with
  | nil => intro st st' _ d hd; exact absurd hd (List.not_mem_nil d)
  | cons day rest ih =>
    intro st st' h d hd
    unfold runDays at h
    split at h
    next c0 st1 hpd => exact absurd h (by simp)
    next st1 hpd =>
      rcases List.mem_cons.mp hd with rfl | hmem
      · exact (processDay_success hpd).1
      · exact ih st1 st' h d hmem

theorem runDays_files (env : Env) :
    ∀ (l : List String) (st : RunState) (r : Option Nat)
      (st' : RunState),
      runDays env l st = (r, st') →
      ∀ p ∈ st'.files, p ∈ st.files ∨
        ∃ d ∈ l, p.1 = dayFileName d ∧ 100 ≤ p.2.length := by
  intro l
  induction l with
  | nil =>
    intro st r st' h p hp
    unfold runDays at h
    have hst : st = st' := (Prod.mk.injEq .. ▸ h).2
    exact Or.inl (hst ▸ hp)
  | cons day rest ih =>
    intro st r st' h p hp
    unfold runDays at h
    split at h
    next c0 st1 hpd =>
      have hst : st1 = st' := (Prod.mk.injEq .. ▸ h).2
      subst hst
      rcases (processDay_abort hpd).2 with rfl | ⟨hh, h100, hso, rfl⟩
      · exact Or.inl hp
      · rcases List.mem_append.mp hp with hpl | hpr
        · exact Or.inl hpl
        · have hpe : p = (dayFileName day, hh) := by simpa using hpr
          exact Or.inr ⟨day, List.mem_cons_self day rest, by simp [hpe],
            by rw [hpe]; exact h100⟩
    next st1 hpd =>
      rcases ih st1 r st' h p hp with hin1 | ⟨d, hd, hname, hlen2⟩
      · rcases (processDay_success hpd).2 with ⟨hh, h100, rfl⟩
        rcases List.mem_append.mp hin1 with hpl | hpr
        · exact Or.inl hpl
        · have hpe : p = (dayFileName day, hh) := by simpa using hpr
          exact Or.inr ⟨day, List.mem_cons_self day rest, by simp [hpe],
            by rw [hpe]; exact h100⟩
      · exact Or.inr ⟨d, List.mem_cons_of_mem day hd, hname, hlen2⟩

theorem runDays_none_shape (env : Env) :
    ∀ (l : List String) (st st' : RunState),
      runDays env l st = (none, st') →
      ∃ hs : List (List Char), hs.length = l.length ∧
        st'.files = st.files ++
          (l.zip hs).map (fun p => (dayFileName p.1, p.2)) ∧
        st'.combined = st.combined ++
          (l.zip hs).map (fun p => hdr p.1 ++ p.2) := by
  intro l
  induction l with
  | nil =>
    intro st st' h
    unfold runDays at h
    have hst : st = st' := (Prod.mk.injEq .. ▸ h).2
    subst hst
    exact ⟨[], rfl, by simp, by simp⟩
  | cons day rest ih =>
    intro st st' h
    unfold runDays at h
    split at h
    next c0 st1 hpd => exact absurd h (by simp)
    next st1 hpd =>
      rcases (processDay_success hpd).2 with ⟨hh, h100, rfl⟩
      rcases ih _ st' h with ⟨hs, hlen, hf, hc⟩
      refine ⟨hh :: hs, by simp [hlen], ?_, ?_⟩
      · rw [hf]; simp [List.zip_cons_cons]
      · rw [hc]; simp [List.zip_cons_cons]

theorem day_file_ne_all : ∀ d ∈ dayNames, dayFileName d ≠ fileAll := by
  decide

/-- C3 counterexample: with the browser strategy raising and every
server-mode GET failing, `fetch_ptv_home_schedule(no_browser=False)`
ends in a non-zero process exit — the caught browser exception hands
control to the server-mode path, whose `sys.exit(1)` is not intercepted
by the top-level `except Exception`. -/
theorem browser_raise_can_exit_nonzero :
    fetch_ptv_home_schedule envFail (BrowserOutcome.raises ⟨[], []⟩)
      false = (Outcome.exited 1, ⟨[], []⟩) := rfl

/-- C3 (amended): a completed browser run returns normally with its
artifacts; when the browser run raises, the exception is caught and the
run falls through to the server strategy — keeping the browser's
already-written artifacts — and the overall outcome is the server
strategy's outcome, which may be a non-zero exit. -/
theorem browser_failure_falls_through :
    (∀ (env : Env) (bst : RunState),
      fetch_ptv_home_schedule env (BrowserOutcome.completes bst) false =
        (Outcome.normal, bst))
      ∧ (∀ (env : Env) (bst : RunState),
          (fetch_ptv_home_schedule env (BrowserOutcome.raises bst)
              false).1 = (serverMode env).1 ∧
          ∀ p ∈ bst.files,
            p ∈ (fetch_ptv_home_schedule env (BrowserOutcome.raises bst)
              false).2.files) :=
  ⟨fun _ _ => rfl,
    fun env bst => ⟨rfl, fun p hp => by
      simp only [fetch_ptv_home_schedule, Bool.false_eq_true, if_false,
        List.mem_append]
      exact Or.inl hp⟩⟩

/-- Witness for `browser_failure_falls_through` at a concrete oracle and
browser trace. -/
theorem browser_failure_falls_through_witness :
    fetch_ptv_home_schedule envGood
        (BrowserOutcome.completes ⟨[("f", ['a'])], []⟩) false =
      (Outcome.normal, ⟨[("f", ['a'])], []⟩) ∧
      (fetch_ptv_home_schedule envFail
          (BrowserOutcome.raises ⟨[("f", ['a'])], []⟩) false).1 =
        (serverMode envFail).1 ∧
      ("f", ['a']) ∈ (fetch_ptv_home_schedule envFail
        (BrowserOutcome.raises ⟨[("f", ['a'])], []⟩) false).2.files :=
  ⟨browser_failure_falls_through.1 envGood ⟨[("f", ['a'])], []⟩,
    (browser_failure_falls_through.2 envFail ⟨[("f", ['a'])], []⟩).1,
    (browser_failure_falls_through.2 envFail ⟨[("f", ['a'])], []⟩).2
      ("f", ['a']) (by simp)⟩

/-- C9: `load_cookies` never raises (it is a total function of the
observed file state): an absent, unreadable or malformed cookie file
yields the empty collection, a readable well-formed one yields the
stored collection. -/
theorem load_cookies_total (f : CookieFile) :
    ((f = CookieFile.absent ∨ f = CookieFile.unreadable) →
        load_cookies f = [])
      ∧ (∀ cs, f = CookieFile.stored cs → load_cookies f = cs) := by
  refine ⟨?_, ?_⟩
  · rintro (rfl | rfl) <;> rfl
  · rintro cs rfl; rfl

/-- Witness for `load_cookies_total`: the absent file yields `[]` and a
stored singleton collection round-trips. -/
theorem load_cookies_total_witness :
    load_cookies CookieFile.absent = [] ∧
      load_cookies (CookieFile.stored [("cf_clearance", "tok")]) =
        [("cf_clearance", "tok")] :=
  ⟨(load_cookies_total CookieFile.absent).1 (Or.inl rfl),
    (load_cookies_total (CookieFile.stored [("cf_clearance", "tok")])).2
      [("cf_clearance", "tok")] rfl⟩

/-- C10: every markup string the no-browser per-day loop hands to the
write step has length at least 100 (pane path and AJAX path have both
been length-checked), so any file the loop writes has at least 100
characters, and when the post-write stat succeeds the "output file too
small" branch is unreachable: an abort with the stat succeeding leaves
the write trace unchanged (it happened before the write). -/
theorem written_day_files_are_long :
    (∀ (env : Env) (day : String) (st : RunState) (r : Option Nat)
        (st' : RunState),
      processDay env day st = (r, st') →
      ∀ p ∈ st'.files, p ∈ st.files ∨
        (p.1 = dayFileName day ∧ 100 ≤ p.2.length))
      ∧ (∀ (env : Env) (day : String) (st st' : RunState),
          env.statOk (dayFileName day) = true →
          processDay env day st = (some 1, st') → st' = st) := by
  constructor
  · intro env day st r st' hp p hmem
    cases r with
    | none =>
      rcases (processDay_success hp).2 with ⟨hh, h100, rfl⟩
      rcases List.mem_append.mp hmem with hpl | hpr
      · exact Or.inl hpl
      · have hpe : p = (dayFileName day, hh) := by simpa using hpr
        exact Or.inr ⟨by simp [hpe], by rw [hpe]; exact h100⟩
    | some c =>
      rcases (processDay_abort hp).2 with rfl | ⟨hh, h100, hso, rfl⟩
      · exact Or.inl hmem
      · rcases List.mem_append.mp hmem with hpl | hpr
        · exact Or.inl hpl
        · have hpe : p = (dayFileName day, hh) := by simpa using hpr
          exact Or.inr ⟨by simp [hpe], by rw [hpe]; exact h100⟩
  · intro env day st st' hstat hp
    rcases (processDay_abort hp).2 with rfl | ⟨hh, h100, hso, rfl⟩
    · rfl
    · rw [hstat] at hso; exact absurd hso (by simp)

/-- Witness for `written_day_files_are_long`: the successful Monday
iteration of `envGood` only appends the long Monday file, and the
aborting Monday iteration of `envFail` (whose stat oracle succeeds)
leaves the trace unchanged. -/
theorem written_day_files_are_long_witness :
    ((dayFileName "Monday", pane120) ∈ (RunState.mk [] []).files ∨
        ((dayFileName "Monday", pane120).1 = dayFileName "Monday" ∧
          100 ≤ (dayFileName "Monday", pane120).2.length)) ∧
      (RunState.mk [] [] : RunState) = ⟨[], []⟩ :=
  ⟨written_day_files_are_long.1 envGood "Monday" ⟨[], []⟩
      (processDay envGood "Monday" ⟨[], []⟩).1
      (processDay envGood "Monday" ⟨[], []⟩).2 rfl
      (dayFileName "Monday", pane120) (by decide),
    written_day_files_are_long.2 envFail "Monday" ⟨[], []⟩ ⟨[], []⟩ rfl
      (by rfl)⟩

/-- C5: in the no-browser per-day loop, when the pane's trimmed markup
is shorter than 100: if the AJAX fetch is classified `ok` with status
200 and trimmed length at least 100 (and the write and stat succeed),
the persisted per-day artifact is exactly the AJAX response body, not
the short pane content; if instead every `ok` outcome of the AJAX fetch
is too short (in particular if it raises), the iteration calls
`sys.exit(1)`, aborting the run before any later weekday. -/
theorem short_pane_replaced_by_ajax :
    (∀ (env : Env) (day : String) (st : RunState) (tabId : String)
        (contents t : List Char) (n sl : Nat),
      idMapGet env.navLinks day = some tabId → tabId ≠ "" →
      env.pane tabId = some contents →
      (pyStrip contents).length < 100 →
      fetch_with_retries (env.ajaxAttempts day) 3 =
        (RetryOutcome.ok 200 t, n, sl) →
      100 ≤ (pyStrip t).length →
      env.writeOk (dayFileName day) = true →
      env.statOk (dayFileName day) = true →
      processDay env day st =
        (none, ⟨st.files ++ [(dayFileName day, t)],
          st.combined ++ [hdr day ++ t]⟩))
      ∧ (∀ (env : Env) (day : String) (st : RunState) (tabId : String)
          (contents : List Char) (rest : List String),
        idMapGet env.navLinks day = some tabId → tabId ≠ "" →
        env.pane tabId = some contents →
        (pyStrip contents).length < 100 →
        (∀ t s n sl, fetch_with_retries (env.ajaxAttempts day) 3 =
          (RetryOutcome.ok s t, n, sl) → (pyStrip t).length < 100) →
        runDays env (day :: rest) st = (some 1, st)) := by
  constructor
  · intro env day st tabId contents t n sl hmap htab hpane hlen hfwr
      hstrip hw hstat
    have hcond : ¬ ((200 : Nat) ≠ 200 ∨ (pyStrip t).length < 100) := by
      omega
    have hsz : ¬ utf8Len t < 100 := by
      have h1 := pyStrip_length_le t
      have h2 := length_le_utf8Len t
      omega
    simp [processDay, hmap, htab, hpane, if_pos hlen, hfwr, hcond,
      writeStep, hw, hstat, hsz, hstrip]
  · intro env day st tabId contents rest hmap htab hpane hlen hshort
    have hpd : processDay env day st = (some 1, st) := by
      rcases hfa : fetch_with_retries (env.ajaxAttempts day) 3 with
        ⟨o, nn, sl⟩
      cases o with
      | ok s t =>
        have hts := hshort t s nn sl hfa
        have hcond : s ≠ 200 ∨ (pyStrip t).length < 100 := Or.inr hts
        simp [processDay, hmap, htab, hpane, if_pos hlen, hfa, hcond]
      | raisedTransport e =>
        simp [processDay, hmap, htab, hpane, if_pos hlen, hfa]
      | raisedExhausted =>
        simp [processDay, hmap, htab, hpane, if_pos hlen, hfa]
    simp [runDays, hpd]

/-- Witness for `short_pane_replaced_by_ajax`: for `envAjax` the Friday
artifact is the 150-byte AJAX body; for `envAjaxShort` (AJAX answers
200 with 2 bytes) the Friday iteration aborts the run. -/
theorem short_pane_replaced_by_ajax_witness :
    processDay envAjax "Friday" ⟨[], []⟩ =
        (none, ⟨[(dayFileName "Friday", ajaxBody)],
          [hdr "Friday" ++ ajaxBody]⟩) ∧
      runDays envAjaxShort ["Friday", "Saturday"] ⟨[], []⟩ =
        (some 1, ⟨[], []⟩) := by
  constructor
  · have h := short_pane_replaced_by_ajax.1 envAjax "Friday" ⟨[], []⟩
      "f" shortPane ajaxBody 1 0 (by rfl) (by decide) (by rfl)
      (by decide) (by rfl) (by decide) (by rfl) (by rfl)
    simpa using h
  · exact short_pane_replaced_by_ajax.2 envAjaxShort "Friday" ⟨[], []⟩
      "f" shortPane ["Saturday"] (by rfl) (by decide) (by rfl) (by decide)
      (fun t s n sl hfa => by
        rw [show fetch_with_retries (envAjaxShort.ajaxAttempts "Friday")
            3 = (RetryOutcome.ok 200 ['x', 'y'], 1, 0) from rfl] at hfa
        have h1 := (Prod.mk.injEq .. ▸ hfa).1
        have ht : t = ['x', 'y'] := by
          cases h1; rfl
        rw [ht]; decide)

/-- C6: if a weekday has no tab identifier in the parsed mapping (or an
empty one), the per-day loop exits 1 as soon as it reaches that weekday,
leaving the write trace unchanged (no later weekday processed); and a
run over the seven weekdays with such a day aborts with exit code 1
without ever writing the combined artifact. -/
theorem missing_tab_aborts :
    (∀ (env : Env) (day : String) (rest : List String) (st : RunState),
      (idMapGet env.navLinks day = none ∨
        idMapGet env.navLinks day = some "") →
      runDays env (day :: rest) st = (some 1, st))
      ∧ (∀ env : Env,
          (∃ day ∈ dayNames, idMapGet env.navLinks day = none ∨
            idMapGet env.navLinks day = some "") →
          ∃ st, serverMode env = (Outcome.exited 1, st) ∧
            ∀ c, (fileAll, c) ∉ st.files) := by
  constructor
  · intro env day rest st hbad
    have hpd : processDay env day st = (some 1, st) := by
      rcases hbad with hnone | hempty
      · simp [processDay, hnone]
      · simp [processDay, hempty]
    simp [runDays, hpd]
  · rintro env ⟨day, hday, hbad⟩
    unfold serverMode
    rcases hfa : fetch_with_retries env.pageAttempts 3 with ⟨o, nn, sl⟩
    cases o with
    | ok s t =>
      by_cases hcond : s ≠ 200 ∨ (pyStrip t).length < 500
      · exact ⟨⟨[], []⟩, by simp [hcond], by simp⟩
      · rcases hrd : runDays env dayNames ⟨[], []⟩ with ⟨r, st0⟩
        cases r with
        | some c =>
          have hc : c = 1 :=
            runDays_abort_code env dayNames ⟨[], []⟩ c st0 hrd
          refine ⟨st0, by simp [hcond, hrd, hc], ?_⟩
          intro cc hmem
          rcases runDays_files env dayNames ⟨[], []⟩ (some c) st0 hrd
              (fileAll, cc) hmem with h1 | ⟨d, hd, hname, _⟩
          · simp at h1
          · exact day_file_ne_all d hd hname.symm
        | none =>
          have hmapped :=
            runDays_none_mapped env dayNames ⟨[], []⟩ st0 hrd day hday
          rcases hbad with hnone | hempty
          · exact absurd hnone hmapped.1
          · exact absurd hempty hmapped.2
    | raisedTransport e => exact ⟨⟨[], []⟩, by simp, by simp⟩
    | raisedExhausted => exact ⟨⟨[], []⟩, by simp, by simp⟩

/-- Witness for `missing_tab_aborts`: the Wednesday-less oracle
`envNoWed` aborts at Wednesday leaving Monday's and Tuesday's files as
the only writes, and its whole server run exits 1 without a combined
artifact. -/
theorem missing_tab_aborts_witness :
    runDays envNoWed ["Wednesday", "Thursday"] ⟨[], []⟩ =
        (some 1, ⟨[], []⟩) ∧
      serverMode envNoWed =
        (Outcome.exited 1, (serverMode envNoWed).2) := by
  refine ⟨missing_tab_aborts.1 envNoWed "Wednesday" ["Thursday"]
    ⟨[], []⟩ (Or.inl (by rfl)), ?_⟩
  obtain ⟨st, hst, -⟩ := missing_tab_aborts.2 envNoWed
    ⟨"Wednesday", by decide, Or.inl (by rfl)⟩
  rw [hst]

/-- C8: whenever the no-browser strategy returns normally, the write
trace consists of the seven per-day files in Monday-to-Sunday order
followed by the combined artifact, whose content is the seven per-day
markup fragments in that same order, each preceded by its
weekday-marking comment line and separated by a blank line, each
fragment equal to the corresponding persisted per-day content. -/
theorem combined_artifact_shape (env : Env) (st : RunState)
    (h : serverMode env = (Outcome.normal, st)) :
    ∃ contents : List (List Char), contents.length = 7 ∧
      st.files =
        (dayNames.zip contents).map (fun p => (dayFileName p.1, p.2)) ++
          [(fileAll, List.intercalate sepBlank
            ((dayNames.zip contents).map (fun p => hdr p.1 ++ p.2)))] ∧
      st.combined =
        (dayNames.zip contents).map (fun p => hdr p.1 ++ p.2) := by
  unfold serverMode at h
  split at h
  next s t nn sl hfa =>
    split at h
    · exact absurd h (by simp)
    next hcond =>
      split at h
      next c st0 hrd => exact absurd h (by simp)
      next st0 hrd =>
        split at h
        next hcw =>
          have hst : st =
              ⟨st0.files ++
                [(fileAll, List.intercalate sepBlank st0.combined)],
                st0.combined⟩ :=
            ((Prod.mk.injEq .. ▸ h).2).symm
          rcases runDays_none_shape env dayNames ⟨[], []⟩ st0 hrd with
            ⟨hs, hlen, hf, hc⟩
          refine ⟨hs, by simpa [dayNames] using hlen, ?_, ?_⟩
          · rw [hst]
            simp only [hf, hc]
            simp
          · rw [hst]
            simp only [hc]
            simp
        · exact absurd h (by simp)
  · exact absurd h (by simp)
  · exact absurd h (by simp)

/-- Witness for `combined_artifact_shape` at the fully successful
oracle `envGood`. -/
theorem combined_artifact_shape_witness :
    ∃ st, serverMode envGood = (Outcome.normal, st) ∧
      ∃ contents : List (List Char), contents.length = 7 ∧
        st.files =
          (dayNames.zip contents).map
              (fun p => (dayFileName p.1, p.2)) ++
            [(fileAll, List.intercalate sepBlank
              ((dayNames.zip contents).map (fun p => hdr p.1 ++ p.2)))] ∧
        st.combined =
          (dayNames.zip contents).map (fun p => hdr p.1 ++ p.2) :=
  ⟨(serverMode envGood).2, by rfl,
    combined_artifact_shape envGood (serverMode envGood).2 (by rfl)⟩

/-- Witness for `build_dynamic_url_fallback` with the non-weekday name
"Funday". -/
theorem build_dynamic_url_fallback_witness :
    ("Funday" ≠ "" ∧ day_map "Funday" = none) ∧
      (build_dynamic_url ⟨739204, 9, 8, 7, 0⟩ (some "Funday") =
          formatUrl "Funday" ⟨739204, 9, 8, 7, 0⟩ ∧
        ∃ rest, build_dynamic_url ⟨739204, 9, 8, 7, 0⟩ (some "Funday") =
          urlHead ++ ("Funday" ++ rest)) :=
  ⟨⟨by decide, rfl⟩,
    build_dynamic_url_fallback ⟨739204, 9, 8, 7, 0⟩ "Funday" (by decide) rfl⟩
